import Mathlib

/-!
Verification of the badserv HTTP fault-injection server (main.go, meta.go).

The model is a shallow embedding of the per-request handler
`service.ServeHTTP` and its helpers `slowWrite`, `closeConn`, the two
process-wide `atomic.Int64` identifier counters, and the log-decorating
handler `slogMeta.Handle`.

Environmental effects that the Go runtime supplies (whether
`httputil.DumpRequest` succeeds, whether `http.ResponseController.Hijack`
succeeds, whether each raw write to the hijacked connection succeeds,
whether `conn.Close` succeeds) are passed in explicitly, and the handler's
observable behaviour (bytes reaching the client through the normal
`ResponseWriter`, events on the hijacked connection, error-log calls,
blocking on context cancellation) is returned as a record.

net/http semantics used by the model: after a successful `Hijack()` the
`http.ResponseWriter` is disconnected from the wire, so a later
`http.Error` on it produces no bytes for the client; before a hijack,
`http.Error msg code` transmits the status code and the body `msg ++ "\n"`.
-/

namespace Badserv

/-- The fixed text document served by badserv (`limeric` in main.go),
byte-for-byte including the trailing newline. -/
def limeric : String :=
  "In the realm of requests and replies,\nHTTP with its status denies.\nWith a 404 frown,\nIt turns users to clowns,\nAs they search for the page that belies.\n"

/-- UTF-8 bytes of a string, as natural numbers.  This is Go's
`[]byte(s)` / `len(s)` view of a string. -/
def strBytes (s : String) : List Nat :=
  s.data.flatMap (fun c => (String.utf8EncodeChar c).map (fun b => b.toNat))

/-- Go's `len` on a string: its byte length. -/
def lenBytes (s : String) : Nat :=
  (strBytes s).length

/-- One observable event on the hijacked connection during `slowWrite`:
a `time.Sleep` of the given number of milliseconds, a successful write of
one byte, or a `bufio.Writer` flush. -/
inductive ConnEv
  | sleepMs (n : Nat)
  | write (b : Nat)
  | flush
deriving DecidableEq

/-- The bytes successfully written to the hijacked connection, in order. -/
def connWrites : List ConnEv → List Nat
  | [] => []
  | ConnEv.sleepMs _ :: tr => connWrites tr
  | ConnEv.write b :: tr => b :: connWrites tr
  | ConnEv.flush :: tr => connWrites tr

/-- Total milliseconds slept along a connection trace. -/
def sleepTotal : List ConnEv → Nat
  | [] => 0
  | ConnEv.sleepMs n :: tr => n + sleepTotal tr
  | ConnEv.write _ :: tr => sleepTotal tr
  | ConnEv.flush :: tr => sleepTotal tr

/-- Errors returned by `closeConn` / `slowWrite`: the hijack failed
(`fmt.Errorf("hijacking connection: %w", errHijack)`) or a write on the
hijacked connection failed (`fmt.Errorf("writing response: %w", errWrite)`). -/
inductive ActErr
  | hijackFailed
  | writeFailed
deriving DecidableEq

/-- The environment the Go runtime presents to one request: whether
`Hijack()` succeeds, whether `conn.Close()` succeeds, and whether the
i-th one-byte write to the hijacked connection succeeds. -/
structure Env where
  hijackOk : Bool
  closeOk : Bool
  writeOk : Nat → Bool

/-- The inbound request as the handler sees it: the result of
`httputil.DumpRequest` (`some errMsg` when dumping fails, `none` on
success), the `action` query parameter (absent query parameter reads as
`""` in Go), and `req.Host`. -/
structure Req where
  dumpErr : Option String
  action : String
  host : String

/-- The observable outcome of one `service.ServeHTTP` call.
`wireStatus`/`wireBody` are what reaches the client through the normal
response path (nothing once the connection is hijacked); `errorCalls`
records every `http.Error` invocation the handler makes (whether or not
it reaches the wire); `connTrace` is the event trace on the hijacked
connection; `connClosed` records that `conn.Close()` was invoked on the
hijacked connection; `blockedUntilCancel` means the handler suspended on
`<-ctx.Done()` and returns exactly when the request context is cancelled;
`loggedErrors` lists the `slog.ErrorContext` messages emitted. -/
structure Out where
  wireStatus : Option Nat
  wireBody : String
  errorCalls : List (Nat × String)
  hijacked : Bool
  connClosed : Bool
  connTrace : List ConnEv
  blockedUntilCancel : Bool
  loggedErrors : List String
  servedContent : Bool

/-- The all-quiet outcome before the handler does anything. -/
def emptyOut : Out :=
  { wireStatus := none
    wireBody := ""
    errorCalls := []
    hijacked := false
    connClosed := false
    connTrace := []
    blockedUntilCancel := false
    loggedErrors := []
    servedContent := false }

/-- `http.Error(rw, msg, code)`: always recorded as a call; it reaches the
wire (status plus `msg ++ "\n"` body) only if the connection has not been
hijacked, because after `Hijack()` the `ResponseWriter` no longer writes
to the client. -/
def httpError (o : Out) (code : Nat) (msg : String) : Out :=
  let o2 := { o with errorCalls := o.errorCalls ++ [(code, msg)] }
  if o2.hijacked then o2
  else { o2 with wireStatus := some code, wireBody := o2.wireBody ++ msg ++ "\n" }

/-- The header part of the hand-written HTTP/1.1 response built by
`slowWrite` via `writeStrs`, string by string as in the source. -/
def slowHeaders (host : String) : String :=
  "HTTP/1.1 200 OK\r\n" ++ "Host: " ++ host ++ "\r\n" ++
  "Content-Length: " ++ toString (lenBytes limeric) ++ "\r\n" ++
  "Content-Type: text/plain\r\n\r\n"

/-- The full buffered response of `slowWrite`: headers then
`resp.WriteString(limeric)`. -/
def slowWriteResp (host : String) : String :=
  slowHeaders host ++ limeric

/-- The write loop of `slowWrite` over the remaining response bytes, with
`i` the index of the next write.  Per byte: `time.Sleep(100ms)`, then a
one-byte write (on failure the loop returns the wrapped write error; the
sleep already happened and no byte was delivered), then `_ = w.Flush()`. -/
def slowLoop (w : Nat → Bool) : List Nat → Nat → List ConnEv × Option ActErr
  | [], _ => ([], none)
  | b :: bs, i =>
    if w i then
      let r := slowLoop w bs (i + 1)
      (ConnEv.sleepMs 100 :: ConnEv.write b :: ConnEv.flush :: r.1, r.2)
    else
      ([ConnEv.sleepMs 100], some ActErr.writeFailed)

/-- Result of `slowWrite`: its returned error, the trace on the hijacked
connection, and whether `conn.Close()` ran (the `defer` runs whenever the
hijack succeeded). -/
structure SWOut where
  err : Option ActErr
  trace : List ConnEv
  closed : Bool

/-- `slowWrite(rw, req)`: hijack the connection (propagating a hijack
failure), build the response for `req.Host`, then write it byte by byte
via `slowLoop`; `defer conn.Close()` closes the connection on every path
after a successful hijack. -/
def slowWrite (host : String) (env : Env) : SWOut :=
  if env.hijackOk then
    let r := slowLoop env.writeOk (strBytes (slowWriteResp host)) 0
    { err := r.2, trace := r.1, closed := true }
  else
    { err := some ActErr.hijackFailed, trace := [], closed := false }

/-- Result of `closeConn`: its returned error and whether `conn.Close()`
was invoked. -/
structure CloseOut where
  err : Option ActErr
  closed : Bool

/-- `closeConn(rw)`: hijack the connection (propagating a hijack failure),
then `_ = conn.Close()` — the close result is discarded, so a failed close
(modelled by `env.closeOk = false`) still yields a nil error. -/
def closeConn (env : Env) : CloseOut :=
  if env.hijackOk then
    let _errClose : Option String := if env.closeOk then none else some "close failed"
    { err := none, closed := true }
  else
    { err := some ActErr.hijackFailed, closed := false }

/-- The dispatch alternatives of the `switch action` in `service.ServeHTTP`. -/
inductive Action
  | dflt
  | hang
  | close
  | slowWr
  | unknown
deriving DecidableEq

/-- The `switch action` scrutinee match of `service.ServeHTTP`, as a
total function on the query-parameter string. -/
def parseAction (s : String) : Action :=
  if s = "" then Action.dflt
  else if s = "hang" then Action.hang
  else if s = "close" then Action.close
  else if s = "slow-write" then Action.slowWr
  else Action.unknown

/-- `service.ServeHTTP`: dump the request (failure logs "dumping request"
and answers `400` with `"bad request: " ++ err`), then dispatch on the
`action` query parameter:
* `""` — `http.ServeContent` serves the fixed document normally (`200`);
* `"hang"` — `<-ctx.Done()`: write nothing and suspend until the request
  context is cancelled, then return;
* `"close"` — `closeConn`; a non-nil error logs "closing connection" and
  answers `500`;
* `"slow-write"` — `slowWrite`; a non-nil error logs "writing response"
  and answers `500` (suppressed on the wire when the hijack succeeded);
* anything else — `400` with body `"unknown action"`. -/
def serveHTTP (req : Req) (env : Env) : Out :=
  match req.dumpErr with
  | some e =>
      httpError { emptyOut with loggedErrors := ["dumping request"] }
        400 ("bad request: " ++ e)
  | none =>
      match parseAction req.action with
      | Action.dflt =>
          { emptyOut with wireStatus := some 200, wireBody := limeric, servedContent := true }
      | Action.hang =>
          { emptyOut with blockedUntilCancel := true }
      | Action.close =>
          let r := closeConn env
          let o := { emptyOut with hijacked := env.hijackOk, connClosed := r.closed }
          match r.err with
          | some _ =>
              httpError { o with loggedErrors := ["closing connection"] }
                500 "can\x27t properly close connection"
          | none => o
      | Action.slowWr =>
          let r := slowWrite req.host env
          let o := { emptyOut with hijacked := env.hijackOk, connTrace := r.trace, connClosed := r.closed }
          match r.err with
          | some _ =>
              httpError { o with loggedErrors := ["writing response"] }
                500 "can\x27t properly write response"
          | none => o
      | Action.unknown =>
          httpError emptyOut 400 "unknown action"

/-! ### Identifier counters

`main` keeps `connIDs := new(atomic.Int64)` and bumps it with `Add(1)` in
`ConnContext`; `service` keeps `counter atomic.Int64` and bumps it with
`Add(1)` at the top of `ServeHTTP`.  Go's `int64` wraps on overflow, so
the counter value is modelled as an integer reduced into
`[-2^63, 2^63)` after each increment. -/

/-- Reduce an integer into the `int64` range `[-2^63, 2^63)`. -/
def int64wrap (x : Int) : Int :=
  (x + 9223372036854775808) % 18446744073709551616 - 9223372036854775808

/-- `atomic.Int64.Add(1)`: the new (wrapped) value of the counter, which
is also the value the caller receives. -/
def atomicAdd1 (c : Int) : Int :=
  int64wrap (c + 1)

/-- The two process-wide counters: `connIDs` in `main` and
`service.counter`. Both start at zero. -/
structure IDCounters where
  connIDs : Int
  reqIDs : Int

/-- Counter state at process start. -/
def initCounters : IDCounters :=
  { connIDs := 0, reqIDs := 0 }

/-- Which identifier is being assigned: a connection id (in
`ConnContext`) or a request id (in `ServeHTTP`). -/
inductive IDKind
  | conn
  | req
deriving DecidableEq

/-- The counter of the given kind. -/
def counterOf : IDKind → IDCounters → Int
  | IDKind.conn, s => s.connIDs
  | IDKind.req, s => s.reqIDs

/-- Assign one identifier of the given kind: bump that counter with
`Add(1)` and hand out the new value; the other counter is untouched. -/
def assignID : IDKind → IDCounters → IDCounters × Int
  | IDKind.conn, s =>
      let v := atomicAdd1 s.connIDs
      ({ s with connIDs := v }, v)
  | IDKind.req, s =>
      let v := atomicAdd1 s.reqIDs
      ({ s with reqIDs := v }, v)

/-- Run a sequence of identifier assignments, returning the final counter
state and each assignment's kind and value in order. -/
def runAssigns : List IDKind → IDCounters → IDCounters × List (IDKind × Int)
  | [], s => (s, [])
  | k :: ks, s =>
      let p := assignID k s
      let r := runAssigns ks p.1
      (r.1, (k, p.2) :: r.2)

/-- Select the value of an assignment of the given kind. -/
def selKind (k : IDKind) (p : IDKind × Int) : Option Int :=
  if p.1 = k then some p.2 else none

/-- The identifiers of one kind handed out by a sequence of assignments
starting from process start, in assignment order. -/
def valuesOf (k : IDKind) (ks : List IDKind) : List Int :=
  ((runAssigns ks initCounters).2).filterMap (selKind k)

/-- The ideal stream of `n` successive `Add(1)` results starting from
counter value `c`. -/
def idSeq (c : Int) : Nat → List Int
  | 0 => []
  | n + 1 => atomicAdd1 c :: idSeq (atomicAdd1 c) n

/-- `n`-fold `Add(1)` on a counter value. -/
def iterAdd : Nat → Int → Int
  | 0, c => c
  | n + 1, c => iterAdd n (atomicAdd1 c)

/-! ### Contextual log sink (`slogMeta`, meta.go) -/

/-- The identifier values an execution context carries: `none` models a
context without that key (or with a non-`int64` value, which the type
assertions in `Handle` also reject). -/
structure LogCtx where
  requestID : Option Int
  connID : Option Int

/-- A log record: message, level, and its appended attributes in order. -/
structure LogRecord where
  msg : String
  level : Int
  attrs : List (String × Int)

/-- `record.Add(key, v)`: append one attribute. -/
def recordAdd (r : LogRecord) (key : String) (v : Int) : LogRecord :=
  { r with attrs := r.attrs ++ [(key, v)] }

/-- `slogMeta.Handle`: add `request_id` when the context carries a request
identifier, then add `conn_id` when it carries a connection identifier,
and forward the resulting record to the wrapped handler.  The returned
record is exactly what the wrapped `s.Handler.Handle` receives. -/
def slogMetaHandle (ctx : LogCtx) (r : LogRecord) : LogRecord :=
  let r2 :=
    match ctx.requestID with
    | some id => recordAdd r "request_id" id
    | none => r
  match ctx.connID with
  | some id => recordAdd r2 "conn_id" id
  | none => r2

end Badserv

namespace Badserv

/-! ### Helper lemmas -/

theorem strBytes_append (a b : String) : strBytes (a ++ b) = strBytes a ++ strBytes b := by
  simp [strBytes, String.data_append, List.flatMap_append]

theorem connWrites_triple (bs : List Nat) :
    connWrites (bs.flatMap (fun b => [ConnEv.sleepMs 100, ConnEv.write b, ConnEv.flush])) = bs := by
  induction bs with
  | nil => rfl
  | cons b bs ih =>
    show connWrites (ConnEv.sleepMs 100 :: ConnEv.write b :: ConnEv.flush ::
      bs.flatMap (fun b => [ConnEv.sleepMs 100, ConnEv.write b, ConnEv.flush])) = b :: bs
    rw [connWrites, connWrites, connWrites, ih]

theorem sleepTotal_triple (bs : List Nat) :
    sleepTotal (bs.flatMap (fun b => [ConnEv.sleepMs 100, ConnEv.write b, ConnEv.flush])) =
      bs.length * 100 := by
  induction bs with
  | nil => rfl
  | cons b bs ih =>
    show sleepTotal (ConnEv.sleepMs 100 :: ConnEv.write b :: ConnEv.flush ::
      bs.flatMap (fun b => [ConnEv.sleepMs 100, ConnEv.write b, ConnEv.flush])) =
        (b :: bs).length * 100
    rw [sleepTotal, sleepTotal, sleepTotal, ih, List.length_cons]
    ring

theorem slowLoop_ok (w : Nat → Bool) (hw : ∀ j, w j = true) :
    ∀ (bs : List Nat) (i : Nat),
    slowLoop w bs i =
      (bs.flatMap (fun b => [ConnEv.sleepMs 100, ConnEv.write b, ConnEv.flush]), none) := by
  intro bs
  induction bs with
  | nil => intro i; rfl
  | cons b bs ih =>
    intro i
    show (if w i then
        let r := slowLoop w bs (i + 1)
        (ConnEv.sleepMs 100 :: ConnEv.write b :: ConnEv.flush :: r.1, r.2)
      else ([ConnEv.sleepMs 100], some ActErr.writeFailed)) = _
    rw [hw i, if_pos rfl, ih]
    rfl

theorem slowLoop_fail (w : Nat → Bool) :
    ∀ (bs : List Nat) (i : Nat), (∃ j, j < bs.length ∧ w (i + j) = false) →
    ((slowLoop w bs i).2).isSome = true := by
  intro bs
  induction bs with
  | nil =>
    intro i h
    obtain ⟨j, hj, _⟩ := h
    simp at hj
  | cons b bs ih =>
    intro i h
    by_cases hwi : w i = true
    · obtain ⟨j, hj, hwj⟩ := h
      have hj0 : j ≠ 0 := by
        intro h0
        rw [h0, Nat.add_zero, hwi] at hwj
        exact Bool.true_eq_false.mp hwj
      simp only [slowLoop, hwi, if_true]
      apply ih
      refine ⟨j - 1, ?_, ?_⟩
      · simp only [List.length_cons] at hj
        omega
      · have harith : i + 1 + (j - 1) = i + j := by omega
        rw [harith]
        exact hwj
    · have hwf : w i = false := Bool.not_eq_true (w i) ▸ hwi
      simp [slowLoop, hwf]

theorem serveHTTP_slow_write_ok (host : String) (co : Bool) (w : Nat → Bool)
    (hw : ∀ j, w j = true) :
    serveHTTP ⟨none, "slow-write", host⟩ ⟨true, co, w⟩ =
      { emptyOut with
          hijacked := true
          connClosed := true
          connTrace := (strBytes (slowWriteResp host)).flatMap
            (fun b => [ConnEv.sleepMs 100, ConnEv.write b, ConnEv.flush]) } := by
  have hloop := slowLoop_ok w hw (strBytes (slowWriteResp host)) 0
  simp [serveHTTP, parseAction, slowWrite, hloop]

end Badserv


namespace Badserv

/-! ### Claim theorems -/

/-- C1: for every request with `action=slow-write` on which hijacking
succeeds (and the transport accepts every write), the bytes written to the
connection are exactly the status line `HTTP/1.1 200 OK\r\n`, the
`Host: <request host>\r\n` header, a `Content-Length: <n>\r\n` header with
`n` the exact byte length of the fixed document, the
`Content-Type: text/plain\r\n` header, the `\r\n` terminator, and the
document body, byte for byte. -/
theorem slow_write_bytes_exact (host : String) (co : Bool) (w : Nat → Bool)
    (hw : ∀ j, w j = true) :
    connWrites (serveHTTP ⟨none, "slow-write", host⟩ ⟨true, co, w⟩).connTrace =
      strBytes ("HTTP/1.1 200 OK\r\n" ++ "Host: " ++ host ++ "\r\n" ++
        "Content-Length: " ++ toString ((strBytes limeric).length) ++ "\r\n" ++
        "Content-Type: text/plain\r\n\r\n" ++ limeric) := by
  show connWrites (serveHTTP ⟨none, "slow-write", host⟩ ⟨true, co, w⟩).connTrace =
    strBytes (slowWriteResp host)
  rw [serveHTTP_slow_write_ok host co w hw]
  exact connWrites_triple (strBytes (slowWriteResp host))

/-- C1 witness: the theorem instantiated at host `localhost:7080` with an
always-succeeding transport. -/
theorem slow_write_bytes_exact_witness :
    (∀ j : Nat, (fun _ : Nat => true) j = true) ∧
    connWrites (serveHTTP ⟨none, "slow-write", "localhost:7080"⟩
        ⟨true, true, fun _ => true⟩).connTrace =
      strBytes ("HTTP/1.1 200 OK\r\n" ++ "Host: " ++ "localhost:7080" ++ "\r\n" ++
        "Content-Length: " ++ toString ((strBytes limeric).length) ++ "\r\n" ++
        "Content-Type: text/plain\r\n\r\n" ++ limeric) :=
  ⟨fun _ => rfl, slow_write_bytes_exact "localhost:7080" true (fun _ => true) (fun _ => rfl)⟩

/-- C2: for every slow-write request on which hijacking succeeds and no
write fails, the transmission is one byte per write with a 100 ms sleep
before each byte and a flush after each byte (hence a 100 ms sleep between
consecutive bytes), the client receives after the headers exactly the
`Content-Length` many body bytes of the fixed document, and total sleeping
is at least (document byte length − 1) × 100 ms. -/
theorem slow_write_pacing (host : String) (co : Bool) (w : Nat → Bool)
    (hw : ∀ j, w j = true) :
    (serveHTTP ⟨none, "slow-write", host⟩ ⟨true, co, w⟩).connTrace =
      (strBytes (slowWriteResp host)).flatMap
        (fun b => [ConnEv.sleepMs 100, ConnEv.write b, ConnEv.flush]) ∧
    connWrites (serveHTTP ⟨none, "slow-write", host⟩ ⟨true, co, w⟩).connTrace =
      strBytes (slowHeaders host) ++ strBytes limeric ∧
    (strBytes limeric).length = lenBytes limeric ∧
    ((strBytes limeric).length - 1) * 100 ≤
      sleepTotal (serveHTTP ⟨none, "slow-write", host⟩ ⟨true, co, w⟩).connTrace := by
  rw [serveHTTP_slow_write_ok host co w hw]
  refine ⟨rfl, ?_, rfl, ?_⟩
  · rw [connWrites_triple, ← strBytes_append]
    rfl
  · rw [sleepTotal_triple]
    have hlen : (strBytes (slowWriteResp host)).length =
        (strBytes (slowHeaders host)).length + (strBytes limeric).length := by
      rw [show slowWriteResp host = slowHeaders host ++ limeric from rfl,
        strBytes_append, List.length_append]
    rw [hlen]
    have hle : (strBytes limeric).length - 1 ≤
        (strBytes (slowHeaders host)).length + (strBytes limeric).length := by
      omega
    exact Nat.mul_le_mul_right 100 hle

/-- C2 witness: the theorem instantiated at host `localhost:7080` with an
always-succeeding transport; the timing bound conjunct. -/
theorem slow_write_pacing_witness :
    (∀ j : Nat, (fun _ : Nat => true) j = true) ∧
    ((strBytes limeric).length - 1) * 100 ≤
      sleepTotal (serveHTTP ⟨none, "slow-write", "localhost:7080"⟩
        ⟨true, true, fun _ => true⟩).connTrace :=
  ⟨fun _ => rfl,
    (slow_write_pacing "localhost:7080" true (fun _ => true) (fun _ => rfl)).2.2.2⟩

/-- C3: on `action=close`, a successful hijack closes the connection with
zero HTTP bytes written (no wire status, no body, no trace events, no
`http.Error` call), while a failed hijack logs "closing connection" and
answers the client with 500. -/
theorem close_action_behavior (host : String) (co : Bool) (w : Nat → Bool) :
    ((serveHTTP ⟨none, "close", host⟩ ⟨true, co, w⟩).connClosed = true ∧
     (serveHTTP ⟨none, "close", host⟩ ⟨true, co, w⟩).connTrace = [] ∧
     (serveHTTP ⟨none, "close", host⟩ ⟨true, co, w⟩).wireStatus = none ∧
     (serveHTTP ⟨none, "close", host⟩ ⟨true, co, w⟩).wireBody = "" ∧
     (serveHTTP ⟨none, "close", host⟩ ⟨true, co, w⟩).errorCalls = [] ∧
     (serveHTTP ⟨none, "close", host⟩ ⟨true, co, w⟩).loggedErrors = []) ∧
    ((serveHTTP ⟨none, "close", host⟩ ⟨false, co, w⟩).wireStatus = some 500 ∧
     (serveHTTP ⟨none, "close", host⟩ ⟨false, co, w⟩).wireBody =
       "can\x27t properly close connection\n" ∧
     (serveHTTP ⟨none, "close", host⟩ ⟨false, co, w⟩).loggedErrors = ["closing connection"] ∧
     (serveHTTP ⟨none, "close", host⟩ ⟨false, co, w⟩).connClosed = false) :=
  ⟨⟨rfl, rfl, rfl, rfl, rfl, rfl⟩, ⟨rfl, rfl, rfl, rfl⟩⟩

/-- C4: on `action=hang`, the handler writes nothing anywhere (no wire
response, no connection events, no `http.Error`) and suspends on
`<-ctx.Done()`, terminating exactly when the request context reports
cancellation. -/
theorem hang_action_behavior (host : String) (env : Env) :
    (serveHTTP ⟨none, "hang", host⟩ env).blockedUntilCancel = true ∧
    (serveHTTP ⟨none, "hang", host⟩ env).wireStatus = none ∧
    (serveHTTP ⟨none, "hang", host⟩ env).wireBody = "" ∧
    (serveHTTP ⟨none, "hang", host⟩ env).errorCalls = [] ∧
    (serveHTTP ⟨none, "hang", host⟩ env).connTrace = [] ∧
    (serveHTTP ⟨none, "hang", host⟩ env).hijacked = false ∧
    (serveHTTP ⟨none, "hang", host⟩ env).connClosed = false :=
  ⟨rfl, rfl, rfl, rfl, rfl, rfl, rfl⟩

/-- C5: if the hijack succeeded but a later one-byte write fails, the
error is logged ("writing response") and nothing more reaches the client —
the `http.Error(500)` the handler then issues is swallowed by the hijacked
`ResponseWriter`, so no wire status or body is produced; a 500 actually
reaches the client only when the hijack itself fails. -/
theorem slow_write_error_handling :
    (∀ (host : String) (co : Bool) (w : Nat → Bool),
      (∃ j, j < (strBytes (slowWriteResp host)).length ∧ w j = false) →
      (serveHTTP ⟨none, "slow-write", host⟩ ⟨true, co, w⟩).wireStatus = none ∧
      (serveHTTP ⟨none, "slow-write", host⟩ ⟨true, co, w⟩).wireBody = "" ∧
      (serveHTTP ⟨none, "slow-write", host⟩ ⟨true, co, w⟩).loggedErrors = ["writing response"] ∧
      (serveHTTP ⟨none, "slow-write", host⟩ ⟨true, co, w⟩).errorCalls =
        [(500, "can\x27t properly write response")] ∧
      (serveHTTP ⟨none, "slow-write", host⟩ ⟨true, co, w⟩).connClosed = true) ∧
    (∀ (host : String) (co : Bool) (w : Nat → Bool),
      (serveHTTP ⟨none, "slow-write", host⟩ ⟨false, co, w⟩).wireStatus = some 500 ∧
      (serveHTTP ⟨none, "slow-write", host⟩ ⟨false, co, w⟩).wireBody =
        "can\x27t properly write response\n" ∧
      (serveHTTP ⟨none, "slow-write", host⟩ ⟨false, co, w⟩).loggedErrors =
        ["writing response"]) := by
  constructor
  · intro host co w hfail
    have hfail2 : ∃ j, j < (strBytes (slowWriteResp host)).length ∧ w (0 + j) = false := by
      obtain ⟨j, hj, hwj⟩ := hfail
      exact ⟨j, hj, by rw [Nat.zero_add]; exact hwj⟩
    have hs := slowLoop_fail w (strBytes (slowWriteResp host)) 0 hfail2
    obtain ⟨e, he⟩ := Option.isSome_iff_exists.mp hs
    simp [serveHTTP, parseAction, slowWrite, he, httpError, emptyOut]
  · intro host co w
    exact ⟨rfl, rfl, rfl⟩

/-- C5 witness: a transport that rejects every write; the handler logs the
failure and nothing reaches the wire. -/
theorem slow_write_error_handling_witness :
    (∃ j, j < (strBytes (slowWriteResp "localhost:7080")).length ∧
      (fun _ : Nat => false) j = false) ∧
    (serveHTTP ⟨none, "slow-write", "localhost:7080"⟩
      ⟨true, true, fun _ => false⟩).wireStatus = none :=
  ⟨⟨0, by set_option maxRecDepth 10000 in decide, rfl⟩,
    (slow_write_error_handling.1 "localhost:7080" true (fun _ => false)
      ⟨0, by set_option maxRecDepth 10000 in decide, rfl⟩).1⟩

/-- C6: when the request cannot be dumped/parsed, the handler logs
"dumping request", answers 400 with a `bad request:` body, and aborts
before looking at the action: the outcome is identical for any two action
strings, and no action-specific effect (content serving, hang, hijack,
close, connection writes) occurs. -/
theorem bad_request_aborts (e a1 a2 host : String) (env : Env) :
    serveHTTP ⟨some e, a1, host⟩ env = serveHTTP ⟨some e, a2, host⟩ env ∧
    (serveHTTP ⟨some e, a1, host⟩ env).wireStatus = some 400 ∧
    (serveHTTP ⟨some e, a1, host⟩ env).wireBody = "bad request: " ++ e ++ "\n" ∧
    (serveHTTP ⟨some e, a1, host⟩ env).loggedErrors = ["dumping request"] ∧
    (serveHTTP ⟨some e, a1, host⟩ env).hijacked = false ∧
    (serveHTTP ⟨some e, a1, host⟩ env).connClosed = false ∧
    (serveHTTP ⟨some e, a1, host⟩ env).connTrace = [] ∧
    (serveHTTP ⟨some e, a1, host⟩ env).blockedUntilCancel = false ∧
    (serveHTTP ⟨some e, a1, host⟩ env).servedContent = false :=
  ⟨rfl, rfl, rfl, rfl, rfl, rfl, rfl, rfl, rfl⟩

/-- C7: any non-empty action other than `hang`, `close` and `slow-write`
gets a 400 with the plain-text body `unknown action` and no
connection-level side effect: no hijack, no close, no connection writes. -/
theorem unknown_action_400 (a host : String) (env : Env)
    (h1 : a ≠ "") (h2 : a ≠ "hang") (h3 : a ≠ "close") (h4 : a ≠ "slow-write") :
    (serveHTTP ⟨none, a, host⟩ env).wireStatus = some 400 ∧
    (serveHTTP ⟨none, a, host⟩ env).wireBody = "unknown action\n" ∧
    (serveHTTP ⟨none, a, host⟩ env).hijacked = false ∧
    (serveHTTP ⟨none, a, host⟩ env).connClosed = false ∧
    (serveHTTP ⟨none, a, host⟩ env).connTrace = [] ∧
    (serveHTTP ⟨none, a, host⟩ env).blockedUntilCancel = false := by
  have hp : parseAction a = Action.unknown := by
    unfold parseAction
    rw [if_neg h1, if_neg h2, if_neg h3, if_neg h4]
  simp [serveHTTP, hp, httpError, emptyOut]

/-- C7 witness: the theorem at the unknown action `bogus`. -/
theorem unknown_action_400_witness :
    (serveHTTP ⟨none, "bogus", "localhost:7080"⟩ ⟨true, true, fun _ => true⟩).wireStatus =
      some 400 :=
  (unknown_action_400 "bogus" "localhost:7080" ⟨true, true, fun _ => true⟩
    (by decide) (by decide) (by decide) (by decide)).1

/-- C9: `slogMeta.Handle` forwards the record with its message and level
unchanged, appending a `request_id` attribute exactly when the context
carries a request identifier and a `conn_id` attribute exactly when it
carries a connection identifier; an absent identifier contributes no
attribute and raises no error. -/
theorem slogMeta_handle_meta_fields (ctx : LogCtx) (r : LogRecord) :
    (slogMetaHandle ctx r).msg = r.msg ∧
    (slogMetaHandle ctx r).level = r.level ∧
    (slogMetaHandle ctx r).attrs =
      r.attrs ++
        (match ctx.requestID with
         | some id => [("request_id", id)]
         | none => []) ++
        (match ctx.connID with
         | some id => [("conn_id", id)]
         | none => []) := by
  obtain ⟨rq, cn⟩ := ctx
  cases rq <;> cases cn <;>
    simp [slogMetaHandle, recordAdd]

/-- C10: `closeConn` returns a nil error exactly when the hijack succeeds;
the result of `conn.Close()` is discarded, so the outcome is independent
of whether the close succeeds, and after a successful hijack with a
failing close the handler still sends no 500 and logs nothing. -/
theorem closeConn_error_iff_hijack (hk co : Bool) (w : Nat → Bool) (host : String) :
    ((closeConn ⟨hk, co, w⟩).err = none ↔ hk = true) ∧
    closeConn ⟨hk, co, w⟩ = closeConn ⟨hk, true, w⟩ ∧
    ((serveHTTP ⟨none, "close", host⟩ ⟨true, false, w⟩).wireStatus = none ∧
     (serveHTTP ⟨none, "close", host⟩ ⟨true, false, w⟩).errorCalls = [] ∧
     (serveHTTP ⟨none, "close", host⟩ ⟨true, false, w⟩).loggedErrors = [] ∧
     (serveHTTP ⟨none, "close", host⟩ ⟨true, false, w⟩).connClosed = true) := by
  refine ⟨?_, ?_, rfl, rfl, rfl, rfl⟩
  · cases hk <;> simp [closeConn]
  · cases hk <;> rfl

end Badserv

namespace Badserv

/-! ### Counter lemmas -/

theorem int64wrap_of_bounds (x : Int) (h1 : -9223372036854775808 ≤ x)
    (h2 : x < 9223372036854775808) : int64wrap x = x := by
  unfold int64wrap
  rw [Int.emod_eq_of_lt (by omega) (by omega)]
  omega

theorem assignID_val (k : IDKind) (s : IDCounters) :
    (assignID k s).2 = atomicAdd1 (counterOf k s) := by
  cases k <;> rfl

theorem counterOf_assign_same (k : IDKind) (s : IDCounters) :
    counterOf k (assignID k s).1 = atomicAdd1 (counterOf k s) := by
  cases k <;> rfl

theorem counterOf_assign_other (k k2 : IDKind) (h : k2 ≠ k) (s : IDCounters) :
    counterOf k (assignID k2 s).1 = counterOf k s := by
  cases k2 <;> cases k <;> first | rfl | exact absurd rfl h

theorem runAssigns_values (k : IDKind) :
    ∀ (ks : List IDKind) (s : IDCounters),
    ((runAssigns ks s).2).filterMap (selKind k) = idSeq (counterOf k s) (ks.count k) := by
  intro ks
  induction ks with
  | nil => intro s; rfl
  | cons k2 ks ih =>
    intro s
    show List.filterMap (selKind k)
        ((k2, (assignID k2 s).2) :: (runAssigns ks (assignID k2 s).1).2) =
      idSeq (counterOf k s) ((k2 :: ks).count k)
    by_cases hk : k2 = k
    · subst hk
      rw [List.filterMap_cons_some
          (show selKind k2 (k2, (assignID k2 s).2) = some (assignID k2 s).2 by simp [selKind]), ih,
        counterOf_assign_same, assignID_val, List.count_cons_self]
      rfl
    · rw [List.filterMap_cons_none (by simp [selKind, hk]), ih,
        counterOf_assign_other k k2 hk, List.count_cons_of_ne (fun h => hk h.symm)]

theorem iterAdd_of_bounds :
    ∀ (n : Nat) (c : Int), 0 ≤ c → c + n < 9223372036854775808 → iterAdd n c = c + n := by
  intro n
  induction n with
  | zero => intro c h0 hn; simp [iterAdd]
  | succ n ih =>
    intro c h0 hn
    have ha : atomicAdd1 c = c + 1 := by
      unfold atomicAdd1
      refine int64wrap_of_bounds (c + 1) (by omega) ?_
      push_cast at hn
      omega
    show iterAdd n (atomicAdd1 c) = c + (n + 1 : Nat)
    rw [ha, ih (c + 1) (by omega) (by push_cast at hn ⊢; omega)]
    push_cast
    ring

theorem idSeq_of_bounds :
    ∀ (n : Nat) (c : Int), 0 ≤ c → c + n < 9223372036854775808 →
    idSeq c n = (List.range n).map (fun j : Nat => c + (j : Int) + 1) := by
  intro n
  induction n with
  | zero => intro c h0 hn; rfl
  | succ n ih =>
    intro c h0 hn
    have ha : atomicAdd1 c = c + 1 := by
      unfold atomicAdd1
      refine int64wrap_of_bounds (c + 1) (by omega) ?_
      push_cast at hn
      omega
    show atomicAdd1 c :: idSeq (atomicAdd1 c) n = _
    rw [ha, ih (c + 1) (by omega) (by push_cast at hn ⊢; omega),
      List.range_succ_eq_map, List.map_cons, List.map_map]
    refine congrArg₂ _ (by norm_num) ?_
    refine List.map_congr_left ?_
    intro a _
    show c + 1 + (a : Int) + 1 = c + ((Nat.succ a : Nat) : Int) + 1
    push_cast
    ring

theorem idSeq_split :
    ∀ (m n : Nat) (c : Int), idSeq c (m + n) = idSeq c m ++ idSeq (iterAdd m c) n := by
  intro m
  induction m with
  | zero => intro n c; rw [Nat.zero_add]; rfl
  | succ m ih =>
    intro n c
    have harith : m + 1 + n = (m + n) + 1 := by omega
    rw [harith]
    show atomicAdd1 c :: idSeq (atomicAdd1 c) (m + n) =
      (atomicAdd1 c :: idSeq (atomicAdd1 c) m) ++ idSeq (iterAdd (m + 1) c) n
    rw [List.cons_append, ih n (atomicAdd1 c)]
    rfl

end Badserv

namespace Badserv

/-- C8 (amended): connection and request identifiers come from separate
process-wide `int64` counters bumped once per assignment; for any
assignment sequence in which the kind has been assigned fewer than `2^63`
times, the identifiers of that kind are `1, 2, …, n` in order — strictly
increasing, hence pairwise distinct — and they depend only on how many
assignments of that kind occurred, independently of the other kind. -/
theorem id_assignment_monotone (ks : List IDKind) (k : IDKind)
    (hcount : ks.count k < 9223372036854775808) :
    valuesOf k ks = (List.range (ks.count k)).map (fun j : Nat => (j : Int) + 1) ∧
    (valuesOf k ks).Pairwise (· < ·) ∧
    (valuesOf k ks).Nodup ∧
    (∀ ks2 : List IDKind, ks2.count k = ks.count k → valuesOf k ks2 = valuesOf k ks) := by
  have h0 : counterOf k initCounters = 0 := by cases k <;> rfl
  have hformula : ∀ ks3 : List IDKind, valuesOf k ks3 = idSeq 0 (ks3.count k) := by
    intro ks3
    rw [valuesOf, runAssigns_values, h0]
  have hcast : (0 : Int) + (ks.count k : Int) < 9223372036854775808 := by
    omega
  have hform := idSeq_of_bounds (ks.count k) 0 (le_refl 0) hcast
  have hmap : (List.range (ks.count k)).map (fun j : Nat => (0 : Int) + (j : Int) + 1) =
      (List.range (ks.count k)).map (fun j : Nat => (j : Int) + 1) :=
    List.map_congr_left (fun a _ => by ring)
  have h1 : valuesOf k ks = (List.range (ks.count k)).map (fun j : Nat => (j : Int) + 1) := by
    rw [hformula, hform, hmap]
  refine ⟨h1, ?_, ?_, ?_⟩
  · rw [h1]
    exact List.Pairwise.map _ (fun a b hab => by omega) (List.pairwise_lt_range _)
  · rw [h1]
    exact (List.nodup_range _).map (fun a b hab => by omega)
  · intro ks2 h2
    rw [hformula ks2, h2, ← hformula ks]

/-- C8 witness: three interleaved assignments; the connection identifiers
are `[1, 2]` for the two connection assignments. -/
theorem id_assignment_monotone_witness :
    ([IDKind.conn, IDKind.req, IDKind.conn].count IDKind.conn < 9223372036854775808) ∧
    valuesOf IDKind.conn [IDKind.conn, IDKind.req, IDKind.conn] =
      (List.range ([IDKind.conn, IDKind.req, IDKind.conn].count IDKind.conn)).map
        (fun j : Nat => (j : Int) + 1) :=
  ⟨by decide,
    (id_assignment_monotone [IDKind.conn, IDKind.req, IDKind.conn] IDKind.conn (by decide)).1⟩

/-- C8 counterexample: the claim as stated fails on the code, because the
`atomic.Int64` counter wraps: in a sequence of `2^63` connection-id
assignments the last identifier is `-2^63`, which is smaller than all the
previous ones, so the values are not strictly increasing. -/
theorem id_monotonic_counterexample :
    ¬ (valuesOf IDKind.conn
        (List.replicate 9223372036854775808 IDKind.conn)).Pairwise (· < ·) := by
  have h0 : counterOf IDKind.conn initCounters = 0 := rfl
  have hcount : (List.replicate 9223372036854775808 IDKind.conn).count IDKind.conn =
      9223372036854775808 := List.count_replicate_self _ _
  have hval : valuesOf IDKind.conn (List.replicate 9223372036854775808 IDKind.conn) =
      idSeq 0 9223372036854775808 := by
    rw [valuesOf, runAssigns_values, h0, hcount]
  have hsplit : idSeq (0 : Int) 9223372036854775808 =
      idSeq 0 9223372036854775807 ++ idSeq (iterAdd 9223372036854775807 0) 1 := by
    have hnum : (9223372036854775807 : Nat) + 1 = 9223372036854775808 := by norm_num
    rw [← hnum, idSeq_split]
  have hiter : iterAdd 9223372036854775807 (0 : Int) = 9223372036854775807 := by
    have h := iterAdd_of_bounds 9223372036854775807 0 (le_refl 0) (by norm_num)
    rw [h]
    norm_num
  have hwrap : atomicAdd1 (9223372036854775807 : Int) = -9223372036854775808 := by
    unfold atomicAdd1 int64wrap
    norm_num
  have hlast : idSeq (9223372036854775807 : Int) 1 = [(-9223372036854775808 : Int)] := by
    show [atomicAdd1 (9223372036854775807 : Int)] = _
    rw [hwrap]
  have hpre : idSeq (0 : Int) 9223372036854775807 =
      (List.range 9223372036854775807).map (fun j : Nat => (0 : Int) + (j : Int) + 1) :=
    idSeq_of_bounds _ _ (le_refl 0) (by norm_num)
  intro hpw
  rw [hval, hsplit, hiter, hlast, hpre, List.pairwise_append] at hpw
  have h1mem : ((0 : Int) + ((0 : Nat) : Int) + 1) ∈
      (List.range 9223372036854775807).map (fun j : Nat => (0 : Int) + (j : Int) + 1) :=
    List.mem_map.mpr ⟨0, List.mem_range.mpr (by norm_num), rfl⟩
  have hcontra := hpw.2.2 _ h1mem (-9223372036854775808) (by simp)
  norm_num at hcontra

end Badserv
